import Mathlib

/-!
Verification of the `events` replication stream
(`synapse/replication/tcp/streams/events.py`).

The embedding models:
* `EventsStreamRow` — the parsed row envelope `(type, data)`;
* `EventsStreamEventRow` — the single registered row variant, tag `"ev"`,
  with five positional fields;
* `TypeToRow` — the row type registry mapping tag to variant constructor;
* `EventsStream.parse_row` — registry lookup plus positional construction;
* `EventsStream.update_function` — the poll over the datastore query,
  tagging each raw row.

Field values on the wire are nullable strings; `none` models JSON `null`
(an absent optional field).
-/

/-- A wire field value: a string or `null` (absent). -/
abbrev RowVal := Option String

/-- The error channel of the decode path.  `unknownRowType` models the
`KeyError` raised by `TypeToRow[typ]` for an unregistered tag;
`malformedRow` models the `TypeError` raised by `cls(*data)` when the
positional data's arity does not match the variant's field count. -/
inductive ReplError
  | unknownRowType
  | malformedRow
deriving DecidableEq, Repr

/-- The single row variant of the events stream (`EventsStreamEventRow`):
five positional fields in declaration order
`event_id, room_id, type, state_key, redacts`. -/
structure EventsStreamEventRow where
  event_id : RowVal
  room_id : RowVal
  type : RowVal
  state_key : RowVal
  redacts : RowVal
deriving DecidableEq, Repr

/-- `EventsStreamEventRow.TypeId = "ev"`: the unique string identifying the
variant in the registry. -/
def EventsStreamEventRow.TypeId : String := "ev"

/-- `BaseEventsStreamRow.from_data` specialized to `EventsStreamEventRow`:
`cls(*data)` — positional construction from the data list.  A data list
whose length differs from the declared field count (five) makes
`cls(*data)` raise `TypeError`, embedded as `malformedRow`. -/
def EventsStreamEventRow.from_data (data : List RowVal) :
    Except ReplError EventsStreamEventRow :=
  match data with
  | [a, b, c, d, e] => Except.ok ⟨a, b, c, d, e⟩
  | _ => Except.error ReplError.malformedRow

/-- The field values of an `EventsStreamEventRow` in declaration order.
Modelled from the spec: the encode direction of the row codec (§4.2) is not
in the excerpt; the spec requires it to emit the fields as an ordered
sequence in declaration order, with absent optional fields as an explicit
`null` sentinel. -/
def EventsStreamEventRow.to_data (r : EventsStreamEventRow) : List RowVal :=
  [r.event_id, r.room_id, r.type, r.state_key, r.redacts]

/-- A parsed row from the events replication stream (`EventsStreamRow`):
the envelope pairing the type tag with the typed payload. -/
structure EventsStreamRow where
  type : String
  data : EventsStreamEventRow
deriving DecidableEq, Repr

/-- The row type registry `TypeToRow = {Row.TypeId: Row for Row in
(EventsStreamEventRow,)}`: maps a tag to the variant's `from_data`
constructor; `none` models a missing key. -/
def TypeToRow (tag : String) :
    Option (List RowVal → Except ReplError EventsStreamEventRow) :=
  if tag = EventsStreamEventRow.TypeId then some EventsStreamEventRow.from_data
  else none

/-- `EventsStream.parse_row`: destructures the wire pair, looks the tag up
in `TypeToRow` (`KeyError` → `unknownRowType` when absent), constructs the
typed payload with `from_data`, and wraps both in an `EventsStreamRow`. -/
def EventsStream.parse_row (row : String × List RowVal) :
    Except ReplError EventsStreamRow :=
  let (typ, data) := row
  match TypeToRow typ with
  | none => Except.error ReplError.unknownRowType
  | some fromData =>
    match fromData data with
    | Except.error e => Except.error e
    | Except.ok d => Except.ok ⟨typ, d⟩

/-- `EventsStream.update_function`: fetches the raw event rows from the
datastore query (`self._store.get_all_new_forward_event_rows`) and maps
each raw row to `(row[0], EventsStreamEventRow.TypeId, row[1:])`.  A raw
row is a datastore tuple whose first element is the stream position and
whose remaining elements are the field values; the query is passed in as a
function, matching the store held by the stream. -/
def EventsStream.update_function
    (get_all_new_forward_event_rows : Int → Int → Option Nat → List (Int × List RowVal))
    (from_token current_token : Int) (limit : Option Nat) :
    List (Int × String × List RowVal) :=
  let event_rows := get_all_new_forward_event_rows from_token current_token limit
  event_rows.map (fun row => (row.1, EventsStreamEventRow.TypeId, row.2))

/-- A raw event record held by the authority: its stream position and the
five schema fields. -/
structure StoredEvent where
  pos : Int
  event_id : RowVal
  room_id : RowVal
  type : RowVal
  state_key : RowVal
  redacts : RowVal
deriving DecidableEq, Repr

/-- Modelled from the spec: the datastore's
`get_all_new_forward_event_rows(from_token, current_token, limit)` is not
in the excerpt (external authority, §6).  Per the spec it returns all raw
change records with position in `(from_token, to_token]`, ordered by
position ascending, capped at `limit` records if provided; each record is
the position followed by the schema fields.
`rangeP` is the half-open range membership test `(from_token, to_token]`. -/
def rangeP (from_token to_token : Int) (e : StoredEvent) : Bool :=
  decide (from_token < e.pos) && decide (e.pos ≤ to_token)

/-- Modelled from the spec: see `rangeP` — all records with position in
`(from_token, to_token]`, in store order (ascending when the store is
ordered), capped at `limit` when provided, as position-plus-fields rows. -/
def storeQuery (store : List StoredEvent)
    (from_token to_token : Int) (limit : Option Nat) : List (Int × List RowVal) :=
  let inRange := store.filter (rangeP from_token to_token)
  let capped := match limit with
    | none => inRange
    | some l => inRange.take l
  capped.map (fun e => (e.pos, [e.event_id, e.room_id, e.type, e.state_key, e.redacts]))

/-- The attrs error raised on assignment to a field of a frozen instance. -/
inductive AttrError
  | frozenInstanceError
deriving DecidableEq, Repr

/-- attrs attribute-assignment semantics for a class declared with the
given frozen flag: when the class is frozen, any field assignment after
construction raises `FrozenInstanceError`; otherwise the update applies. -/
def attrsSetattr (frozen : Bool) (update : α → α) (r : α) : Except AttrError α :=
  if frozen then Except.error AttrError.frozenInstanceError else Except.ok (update r)

/-- `EventsStreamRow` is declared `@attr.s(slots=True, frozen=True)`. -/
def EventsStreamRow.frozen : Bool := true

/-- `EventsStreamEventRow` is declared `@attr.s(slots=True, frozen=True)`. -/
def EventsStreamEventRow.frozen : Bool := true

/-! ## Theorems -/

/-- C1: decoding the encoding of a row round-trips — `parse_row` applied to
the pair `(TypeId, positional data in declaration order)` produced from any
`EventsStreamEventRow` returns an `EventsStreamRow` envelope whose payload
equals the original row. -/
theorem parse_row_roundtrip (r : EventsStreamEventRow) :
    EventsStream.parse_row (EventsStreamEventRow.TypeId, r.to_data)
      = Except.ok ⟨EventsStreamEventRow.TypeId, r⟩ := by
  cases r
  rfl

/-- C2 counterexample: with `from_token = 5 > to_token = 3` the code does
not reject the call — the datastore query is issued and its row comes back
tagged in the result; no `InvalidRange` rejection exists on this path. -/
theorem update_function_inverted_range_counterexample :
    EventsStream.update_function (fun _ _ _ => [((7 : Int), [some "$x"])]) 5 3 none
      = [((7 : Int), (EventsStreamEventRow.TypeId, [some "$x"]))] := rfl

/-- C2 amended: `update_function` performs no range validation; even when
`from_token > to_token` it issues the datastore query unchanged and returns
that query's rows, each tagged with the variant's `TypeId`. -/
theorem update_function_no_range_validation
    (query : Int → Int → Option Nat → List (Int × List RowVal))
    (from_token to_token : Int) (limit : Option Nat)
    (_h : to_token < from_token) :
    EventsStream.update_function query from_token to_token limit
      = (query from_token to_token limit).map
          (fun row => (row.1, EventsStreamEventRow.TypeId, row.2)) := rfl

/-- C2 amended, witness at `from_token = 5 > to_token = 3`. -/
theorem update_function_no_range_validation_witness :
    (3 : Int) < 5 ∧
    EventsStream.update_function (fun _ _ _ => [((7 : Int), [some "$x"])]) 5 3 none
      = ((fun (_ _ : Int) (_ : Option Nat) => [((7 : Int), [some "$x"])]) 5 3 none).map
          (fun row => (row.1, EventsStreamEventRow.TypeId, row.2)) :=
  ⟨by decide,
   update_function_no_range_validation
     (fun _ _ _ => [((7 : Int), [some "$x"])]) 5 3 none (by decide)⟩

/-- C3: for every tag absent from the registry `TypeToRow` and every data
payload, `parse_row` fails with `unknownRowType` and returns no partial
result. -/
theorem parse_row_unknown_tag (tag : String) (data : List RowVal)
    (h : TypeToRow tag = none) :
    EventsStream.parse_row (tag, data) = Except.error ReplError.unknownRowType := by
  simp only [EventsStream.parse_row, h]

/-- C3 witness: the tag `"nonexistent_tag"` is not in the registry, and
decoding with it fails with `unknownRowType`. -/
theorem parse_row_unknown_tag_witness :
    TypeToRow "nonexistent_tag" = none ∧
    EventsStream.parse_row ("nonexistent_tag", [some "$x"])
      = Except.error ReplError.unknownRowType :=
  ⟨rfl, parse_row_unknown_tag "nonexistent_tag" [some "$x"] rfl⟩

/-- C4: for every positional data list whose length differs from the
variant's declared field count (five), `from_data` fails with
`malformedRow`. -/
theorem from_data_arity (data : List RowVal) (h : data.length ≠ 5) :
    EventsStreamEventRow.from_data data = Except.error ReplError.malformedRow := by
  unfold EventsStreamEventRow.from_data
  split
  · simp_all
  · rfl

/-- C4 witness: `from_data` on the one-element list `["$a"]` fails with
`malformedRow`. -/
theorem from_data_arity_witness :
    ([some "$a"] : List RowVal).length ≠ 5 ∧
    EventsStreamEventRow.from_data [some "$a"]
      = Except.error ReplError.malformedRow :=
  ⟨by decide, from_data_arity [some "$a"] (by decide)⟩

/-- The two-event authority of the spec's scenario: positions 10 and 11
with raw fields `("$a", "!r1", "m.text", null, null)` and
`("$b", "!r1", "m.redaction", null, "$a")`. -/
def scenarioStore : List StoredEvent :=
  [⟨10, some "$a", some "!r1", some "m.text", none, none⟩,
   ⟨11, some "$b", some "!r1", some "m.redaction", none, some "$a"⟩]

/-- C5: on the scenario authority, polling from token 5 to token 11 returns
exactly the rows at positions 10 and 11 in that order, each tagged `"ev"`
with the raw fields in declaration order; decoding each tagged pair with
`parse_row` yields the corresponding typed envelope
`EventsStreamRow "ev" (EventsStreamEventRow ...)`. -/
theorem scenario_poll_changes :
    EventsStream.update_function (storeQuery scenarioStore) 5 11 none
      = [((10 : Int), ("ev", [some "$a", some "!r1", some "m.text", none, none])),
         ((11 : Int), ("ev", [some "$b", some "!r1", some "m.redaction", none, some "$a"]))]
    ∧ EventsStream.parse_row ("ev", [some "$a", some "!r1", some "m.text", none, none])
        = Except.ok ⟨"ev", ⟨some "$a", some "!r1", some "m.text", none, none⟩⟩
    ∧ EventsStream.parse_row ("ev", [some "$b", some "!r1", some "m.redaction", none, some "$a"])
        = Except.ok ⟨"ev", ⟨some "$b", some "!r1", some "m.redaction", none, some "$a"⟩⟩ := by
  refine ⟨?_, rfl, rfl⟩
  rfl

/-- C6: for every authority, token `T` and limit, polling from `T` to `T`
returns the empty sequence. -/
theorem update_function_empty_range (store : List StoredEvent) (T : Int)
    (limit : Option Nat) :
    EventsStream.update_function (storeQuery store) T T limit = [] := by
  have hnil : store.filter (rangeP T T) = [] := by
    rw [List.filter_eq_nil_iff]
    intro e _
    simp only [rangeP, Bool.and_eq_true, decide_eq_true_eq, not_and]
    omega
  unfold EventsStream.update_function storeQuery
  rw [hnil]
  cases limit <;> simp

/-- On an authority whose records are ordered by position, the half-open
range filter over `(A, C]` splits at any intermediate token `B` into the
filter over `(A, B]` followed by the filter over `(B, C]`. -/
theorem filterRange_split (A B C : Int) (l : List StoredEvent)
    (hAB : A ≤ B) (hBC : B ≤ C)
    (hs : List.Pairwise (fun a b => a.pos ≤ b.pos) l) :
    l.filter (rangeP A C) = l.filter (rangeP A B) ++ l.filter (rangeP B C) := by
  induction l with
  | nil => simp
  | cons x t ih =>
    rw [List.pairwise_cons] at hs
    obtain ⟨hall, hst⟩ := hs
    by_cases hxB : x.pos ≤ B
    · have nBC : ¬ (rangeP B C x = true) := by
        simp only [rangeP, Bool.and_eq_true, decide_eq_true_eq]
        omega
      by_cases hxA : A < x.pos
      · have pAC : rangeP A C x = true := by
          simp only [rangeP, Bool.and_eq_true, decide_eq_true_eq]
          omega
        have pAB : rangeP A B x = true := by
          simp only [rangeP, Bool.and_eq_true, decide_eq_true_eq]
          omega
        rw [List.filter_cons_of_pos pAC, List.filter_cons_of_pos pAB,
          List.filter_cons_of_neg nBC, ih hst, List.cons_append]
      · have nAC : ¬ (rangeP A C x = true) := by
          simp only [rangeP, Bool.and_eq_true, decide_eq_true_eq]
          omega
        have nAB : ¬ (rangeP A B x = true) := by
          simp only [rangeP, Bool.and_eq_true, decide_eq_true_eq]
          omega
        rw [List.filter_cons_of_neg nAC, List.filter_cons_of_neg nAB,
          List.filter_cons_of_neg nBC]
        exact ih hst
    · have hxA : A < x.pos := by omega
      have hABnil : (x :: t).filter (rangeP A B) = [] := by
        rw [List.filter_eq_nil_iff]
        intro e he
        simp only [rangeP, Bool.and_eq_true, decide_eq_true_eq, not_and]
        intro _
        rcases List.mem_cons.mp he with rfl | hmem
        · omega
        · have := hall e hmem; omega
      rw [hABnil, List.nil_append]
      apply List.filter_congr
      intro e he
      have hepos : B < e.pos := by
        rcases List.mem_cons.mp he with rfl | hmem
        · omega
        · have := hall e hmem; omega
      have heA : A < e.pos := by omega
      simp [rangeP, hepos, heA]

/-- C7: range monotonicity — for any tokens `A ≤ B ≤ C` over an authority
whose records are ordered by position, the rows of the unlimited poll from
`A` to `C` equal the in-order concatenation of the polls from `A` to `B`
and from `B` to `C`. -/
theorem update_function_range_split (store : List StoredEvent) (A B C : Int)
    (hAB : A ≤ B) (hBC : B ≤ C)
    (hs : List.Pairwise (fun a b => a.pos ≤ b.pos) store) :
    EventsStream.update_function (storeQuery store) A C none
      = EventsStream.update_function (storeQuery store) A B none
        ++ EventsStream.update_function (storeQuery store) B C none := by
  have hq : ∀ X Y : Int, storeQuery store X Y none
      = (store.filter (rangeP X Y)).map
          (fun e => (e.pos, [e.event_id, e.room_id, e.type, e.state_key, e.redacts])) :=
    fun X Y => rfl
  unfold EventsStream.update_function
  rw [hq, hq, hq, filterRange_split A B C store hAB hBC hs]
  simp [List.map_append]

/-- A two-record ordered authority used to instantiate the range-split
law concretely. -/
def splitWitnessStore : List StoredEvent :=
  [⟨1, some "$a", some "!r1", some "m.text", none, none⟩,
   ⟨2, some "$b", some "!r1", some "m.text", none, none⟩]

/-- C7 witness: the range-split law instantiated at tokens 0 ≤ 1 ≤ 2 over
a concrete two-record ordered authority. -/
theorem update_function_range_split_witness :
    ((0 : Int) ≤ 1 ∧ (1 : Int) ≤ 2 ∧
      List.Pairwise (fun a b => a.pos ≤ b.pos) splitWitnessStore) ∧
    EventsStream.update_function (storeQuery splitWitnessStore) 0 2 none
      = EventsStream.update_function (storeQuery splitWitnessStore) 0 1 none
        ++ EventsStream.update_function (storeQuery splitWitnessStore) 1 2 none :=
  ⟨⟨by decide, by decide, by decide⟩,
   update_function_range_split splitWitnessStore 0 1 2 (by decide) (by decide)
     (by decide)⟩

/-- C8: the poll is deterministic and idempotent in content — two calls
over the same valid token range that receive the same raw rows from the
authority (no concurrent writes) produce equal output sequences: same
rows, same order. -/
theorem update_function_deterministic
    (q1 q2 : Int → Int → Option Nat → List (Int × List RowVal))
    (from_token to_token : Int) (limit : Option Nat)
    (_hrange : from_token ≤ to_token)
    (h : q1 from_token to_token limit = q2 from_token to_token limit) :
    EventsStream.update_function q1 from_token to_token limit
      = EventsStream.update_function q2 from_token to_token limit := by
  unfold EventsStream.update_function
  rw [h]

/-- C8 witness: two syntactically different queries that return the same
raw rows on the range 0..1 give equal poll results. -/
theorem update_function_deterministic_witness :
    ((0 : Int) ≤ 1 ∧
      (fun (_ _ : Int) (_ : Option Nat) => [((1 : Int), [some "$a"])]) 0 1 none
        = (fun (f _ : Int) (_ : Option Nat) =>
            if f = 0 then [((1 : Int), [some "$a"])] else []) 0 1 none) ∧
    EventsStream.update_function
        (fun (_ _ : Int) (_ : Option Nat) => [((1 : Int), [some "$a"])]) 0 1 none
      = EventsStream.update_function
          (fun (f _ : Int) (_ : Option Nat) =>
            if f = 0 then [((1 : Int), [some "$a"])] else []) 0 1 none :=
  ⟨⟨by decide, by decide⟩,
   update_function_deterministic
     (fun (_ _ : Int) (_ : Option Nat) => [((1 : Int), [some "$a"])])
     (fun (f _ : Int) (_ : Option Nat) =>
       if f = 0 then [((1 : Int), [some "$a"])] else [])
     0 1 none (by decide) (by decide)⟩

/-- C9: rows are immutable once constructed — both `EventsStreamRow` and
`EventsStreamEventRow` are declared with the frozen flag, so every
attempted field assignment on any constructed row fails with
`FrozenInstanceError` instead of changing the row. -/
theorem rows_immutable :
    (∀ (r : EventsStreamRow) (u : EventsStreamRow → EventsStreamRow),
        attrsSetattr EventsStreamRow.frozen u r
          = Except.error AttrError.frozenInstanceError) ∧
    (∀ (r : EventsStreamEventRow) (u : EventsStreamEventRow → EventsStreamEventRow),
        attrsSetattr EventsStreamEventRow.frozen u r
          = Except.error AttrError.frozenInstanceError) :=
  ⟨fun _ _ => rfl, fun _ _ => rfl⟩

/-- C10: `update_function` is an order- and length-preserving map over the
raw rows returned by the datastore query: the output has exactly one entry
per raw row (nothing dropped, duplicated or reordered), and the entry at
each index is the raw row at that index transformed to
`(position, "ev", remaining elements unchanged)`. -/
theorem update_function_order_preserving_map
    (query : Int → Int → Option Nat → List (Int × List RowVal))
    (from_token current_token : Int) (limit : Option Nat) :
    (EventsStream.update_function query from_token current_token limit).length
        = (query from_token current_token limit).length
    ∧ ∀ i : Nat,
        (EventsStream.update_function query from_token current_token limit)[i]?
          = ((query from_token current_token limit)[i]?).map
              (fun row => (row.1, EventsStreamEventRow.TypeId, row.2)) := by
  unfold EventsStream.update_function
  refine ⟨List.length_map _ _, fun i => ?_⟩
  rw [List.getElem?_map]
